import Mathlib

/-!
Verification of `check_notebooks.py`, a command-line utility that executes
Jupyter notebooks via an external tool and reports whether any cell raised
an error, or (in `--check` mode) inspects already-saved notebook outputs.

The script is embedded shallowly:
* Python strings are Lean `String`s; the string operations the script uses
  (`in`, slicing, `strip`, `split('\n')`, `'\n'.join`) are defined below
  over the underlying character lists so that they are executable and easy
  to reason about.
* The subprocess call in `run_notebook` is modelled by a `SubprocResult`
  value: either the launch raised `FileNotFoundError`, or it completed
  with a return code and a captured stderr text.
* `json.load` in `check_saved_outputs` is modelled by a
  `String → Except String Notebook` function supplied to the driver; a
  `.error` value stands for the uncaught parse/IO exception.
* `print` calls are collected as a list of the strings passed to `print`
  (each element is terminated by a newline on the real console).
-/

/-- Decidable version of `pat <+: l`: `leadsWith pat l` holds when `pat`
is an initial segment of `l`. -/
def leadsWith : List Char → List Char → Bool
  | [], _ => true
  | _ :: _, [] => false
  | p :: ps, x :: xs => p == x && leadsWith ps xs

/-- Decidable version of `pat <:+: l`: `occursWithin pat l` holds when
`pat` occurs contiguously inside `l`. -/
def occursWithin (pat : List Char) : List Char → Bool
  | [] => leadsWith pat []
  | x :: xs => leadsWith pat (x :: xs) || occursWithin pat xs

/-- Embedding of Python's substring test `pat in s`. -/
def pyContains (s pat : String) : Bool :=
  occursWithin pat.data s.data

/-- Embedding of Python's `s.startswith(pre)`. -/
def pyStartsWith (s pre : String) : Bool :=
  leadsWith pre.data s.data

/-- Character-lexicographic order on character lists: the order of the
whole path *string*. The program does not sort by this order (see
`pathLe`); it is kept to state what "lexicographically sorted by path"
would mean read over the path string. -/
def lexLe : List Char → List Char → Bool
  | [], _ => true
  | _ :: _, [] => false
  | x :: xs, y :: ys => if x = y then lexLe xs ys else decide (x < y)

/-- Strict character-lexicographic order on character lists: Python's `<`
on two strings. -/
def lexLt : List Char → List Char → Bool
  | [], [] => false
  | [], _ :: _ => true
  | _ :: _, [] => false
  | x :: xs, y :: ys => if x = y then lexLt xs ys else decide (x < y)

/-- Python's `<=` on two lists of strings (lexicographic over the list,
elements compared as strings). -/
def partsLe : List (List Char) → List (List Char) → Bool
  | [], _ => true
  | _ :: _, [] => false
  | a :: as, b :: bs => if a = b then partsLe as bs else lexLt a b

/-- Embedding of Python's slice `s[:n]` (by code points). -/
def pySlice (s : String) (n : Nat) : String :=
  ⟨s.data.take n⟩

/-- Strip whitespace from both ends of a character list. -/
def trimChars (l : List Char) : List Char :=
  ((l.dropWhile Char.isWhitespace).reverse.dropWhile Char.isWhitespace).reverse

/-- Embedding of Python's `s.strip()`. -/
def pyStrip (s : String) : String :=
  ⟨trimChars s.data⟩

/-- Split a character list at every occurrence of `c`; the separators are
dropped and empty pieces are kept, as in Python's `s.split(c)`. -/
def splitOnChar (c : Char) : List Char → List (List Char)
  | [] => [[]]
  | x :: xs =>
    match splitOnChar c xs with
    | [] => [[]]
    | h :: t => if x = c then [] :: h :: t else (x :: h) :: t

/-- Embedding of Python's `s.split('\n')`. -/
def pySplitLines (s : String) : List String :=
  (splitOnChar '\n' s.data).map (fun cs => ⟨cs⟩)

/-- The component list pathlib compares: the path string split at every
separator (`PurePath._parts_normcase`, case-preserving on POSIX). -/
def pathComponents (p : String) : List (List Char) :=
  splitOnChar '/' p.data

/-- How `sorted` compares two `Path` objects: `PurePath.__lt__` compares
the lists of path components (split on the separator), not the whole
path strings. -/
def pathLe (a b : String) : Bool :=
  partsLe (pathComponents a) (pathComponents b)

/-- Embedding of Python's `'\n'.join(lines)`. -/
def pyJoinLines (ls : List String) : String :=
  ⟨List.intercalate ['\n'] (ls.map String.data)⟩

/-- Embedding of `error_msg[:200] if len(error_msg) > 200 else error_msg`
in `run_notebook`. -/
def truncate200 (m : String) : String :=
  if 200 < m.data.length then ⟨m.data.take 200⟩ else m

/-- Outcome of the `subprocess.run` call in `run_notebook`: either the
launch raised `FileNotFoundError`, or the subprocess completed with a
return code and captured stderr text. -/
inductive SubprocResult where
  | fileNotFound : SubprocResult
  | completed (returncode : Int) (stderrText : String) : SubprocResult

/-- The loop `for i, line in enumerate(lines): if 'Error' in line or
'Exception' in line: error_msg = '\n'.join(lines[i:i+3]); break` from
`run_notebook`: returns the extracted three-line message of the first
matching line, or `none` when no line matches. -/
def scan_error_lines : List String → Option String
  | [] => none
  | l :: ls =>
    if pyContains l "Error" || pyContains l "Exception" then
      some (pyJoinLines (l :: ls.take 2))
    else scan_error_lines ls

/-- The stderr post-processing in `run_notebook` before truncation:
starting from the stripped stderr, if it contains `CellExecutionError`
replace it by the three-line extract when a line containing `Error` or
`Exception` is found. -/
def extract_error_msg (msg : String) : String :=
  if pyContains msg "CellExecutionError" then
    match scan_error_lines (pySplitLines msg) with
    | some m => m
    | none => msg
  else msg

/-- Embedding of `run_notebook` (src/check_notebooks.py, lines 23-55) as a
function of the subprocess outcome: returns `(success, error_message)`. -/
def run_notebook (r : SubprocResult) : Bool × String :=
  match r with
  | .completed rc se =>
    if rc ≠ 0 then
      (false, truncate200 (extract_error_msg (pyStrip se)))
    else (true, "")
  | .fileNotFound =>
    (false, "jupyter not found. Install with: pip install jupyter nbconvert")

/-- One output record of a code cell. Fields mirror the JSON object: each
is `none` when the key is absent (`output.get(...)`). -/
structure OutputRec where
  output_type : Option String
  ename : Option String
  evalue : Option String
deriving DecidableEq, Repr

/-- One notebook cell: its `cell_type` (absent key gives `none`) and its
`outputs` list (`cell.get('outputs', [])` makes an absent key the empty
list, so a plain list suffices). -/
structure Cell where
  cell_type : Option String
  outputs : List OutputRec
deriving DecidableEq, Repr

/-- A parsed notebook document: its `cells` list
(`notebook.get('cells', [])` makes an absent key the empty list). -/
structure Notebook where
  cells : List Cell
deriving DecidableEq, Repr

/-- One error descriptor collected by `check_saved_outputs`:
`{'cell': i, 'ename': ename, 'evalue': evalue}`. -/
structure ErrDesc where
  cell : Nat
  ename : String
  evalue : String
deriving DecidableEq, Repr

/-- The body of the loop in `check_saved_outputs` for one cell with
1-based index `i`: skip non-code cells, and for each output with
`output_type == 'error'` record the index, `ename` (default `Unknown`)
and `evalue[:100]` (default empty). -/
def cellErrors (i : Nat) (c : Cell) : List ErrDesc :=
  if c.cell_type = some "code" then
    (c.outputs.filter (fun o => o.output_type == some "error")).map
      (fun o => ⟨i, o.ename.getD "Unknown", pySlice (o.evalue.getD "") 100⟩)
  else []

/-- The loop `for i, cell in enumerate(notebook.get('cells', []), start=1)`
of `check_saved_outputs`, collecting the error descriptors of all cells
with indices counted from `i`. -/
def collect_errors (i : Nat) : List Cell → List ErrDesc
  | [] => []
  | c :: cs => cellErrors i c ++ collect_errors (i + 1) cs

/-- Embedding of `check_saved_outputs` (src/check_notebooks.py, lines
58-72) applied to an already-parsed document. -/
def check_saved_outputs (nb : Notebook) : List ErrDesc :=
  collect_errors 1 nb.cells

example : run_notebook (.completed 1 "  boom  ") = (false, "boom") := by rfl

example :
    check_saved_outputs
      ⟨[⟨some "markdown", []⟩,
        ⟨some "code", [⟨some "error", some "ValueError", some "boom"⟩]⟩,
        ⟨some "code", []⟩]⟩ = [⟨2, "ValueError", "boom"⟩] := by rfl

/-- Embedding of `nb_path.name`: the final component of the path. -/
def path_name (p : String) : String :=
  ⟨(splitOnChar '/' p.data).getLastD []⟩

/-- Target resolution in `main` (src/check_notebooks.py, lines 76-84):
arguments starting with `--` are stripped; if any positional arguments
remain they are the notebook paths, otherwise the notebooks discovered by
the filesystem glob (the `discovered` parameter) are used after dropping
paths containing `.ipynb_checkpoints`. -/
def resolve_targets (argv discovered : List String) : List String :=
  let args := argv.filter (fun a => !(pyStartsWith a "--"))
  if args.isEmpty then
    discovered.filter (fun p => !(pyContains p ".ipynb_checkpoints"))
  else args

/-- Embedding of `sorted(notebooks)` in `main`: the notebooks are `Path`
objects, so they are sorted by pathlib's ordering `pathLe` (component
lists compared lexicographically), not by the whole path string. -/
def sortNotebooks (ns : List String) : List String :=
  List.insertionSort (fun a b : String => pathLe a b = true) ns

/-- The body of the per-notebook loop of `main` (src/check_notebooks.py,
lines 95-113) for one notebook path `p`: returns the pair of the
notebook's pass flag and the lines printed for it, or propagates the
uncaught exception of `check_saved_outputs` (a `.error` from `load`). -/
def process_notebook (check_only : Bool) (exec : String → SubprocResult)
    (load : String → Except String Notebook) (p : String) :
    Except String (Bool × List String) :=
  if check_only then
    match load p with
    | .error e => .error e
    | .ok nb =>
      let errors := check_saved_outputs nb
      if errors.isEmpty then .ok (true, ["✓ " ++ path_name p ++ ": OK"])
      else .ok (false,
        ("❌ " ++ path_name p ++ ": " ++ toString errors.length ++ " error(s)")
          :: errors.map (fun e =>
              "   Cell " ++ toString e.cell ++ ": " ++ e.ename ++ ": " ++ e.evalue))
  else
    match run_notebook (exec p) with
    | (true, _) => .ok (true, ["  Running " ++ path_name p ++ "...", "✓"])
    | (false, err) =>
      .ok (false, ["  Running " ++ path_name p ++ "...", "❌", "    Error: " ++ err])

/-- The per-notebook loop of `main` over a list of paths: folds the
`all_passed` flag with `&&` and concatenates the printed lines, stopping
at the first uncaught exception. -/
def process_all (check_only : Bool) (exec : String → SubprocResult)
    (load : String → Except String Notebook) :
    List String → Except String (Bool × List String)
  | [] => .ok (true, [])
  | p :: ps =>
    match process_notebook check_only exec load p with
    | .error e => .error e
    | .ok (ok1, ls1) =>
      match process_all check_only exec load ps with
      | .error e => .error e
      | .ok (ok2, ls2) => .ok (ok1 && ok2, ls1 ++ ls2)

/-- Result of a completed run: the list of strings passed to `print` and
the value returned by `main` (the process exit status). -/
structure RunResult where
  lines : List String
  exitCode : Nat
deriving DecidableEq, Repr

/-- Embedding of `main` (src/check_notebooks.py, lines 75-121); named
`main_run` because Lean reserves `main` for executable entry points.
`argv` models `sys.argv[1:]`; `discovered` models the result of the
filesystem glob `repo_root.glob('**/*.ipynb')`; `exec` models the
subprocess call for a given path; `load` models opening and JSON-parsing
a given path. A `.error` result is the uncaught exception aborting the
run. -/
def main_run (argv discovered : List String) (exec : String → SubprocResult)
    (load : String → Except String Notebook) : Except String RunResult :=
  let check_only := argv.contains "--check"
  let notebooks := resolve_targets argv discovered
  if notebooks.isEmpty then .ok ⟨["No notebooks found."], 0⟩
  else
    let mode := if check_only then "Checking saved outputs" else "Running"
    let header := mode ++ " " ++ toString notebooks.length ++ " notebook(s)...\n"
    match process_all check_only exec load (sortNotebooks notebooks) with
    | .error e => .error e
    | .ok (all_passed, body) =>
      .ok ⟨header :: body ++ [""] ++
            [if all_passed then "All notebooks passed! ✓"
             else "Some notebooks have errors."],
           if all_passed then 0 else 1⟩

/-- Whether one notebook passes, as the claims describe it: in inspection
mode the document loads and has no recorded error descriptors; in
execution mode the executor reports success. -/
def notebook_passed (check_only : Bool) (exec : String → SubprocResult)
    (load : String → Except String Notebook) (p : String) : Bool :=
  if check_only then
    match load p with
    | .ok nb => (check_saved_outputs nb).isEmpty
    | .error _ => false
  else (run_notebook (exec p)).1

/-- Index-based reading of the spec sentence "search line by line for a
line containing Error or Exception": the 0-based index of the first such
line. -/
def first_error_line_idx : List String → Option Nat
  | [] => none
  | l :: ls =>
    if pyContains l "Error" || pyContains l "Exception" then some 0
    else (first_error_line_idx ls).map (· + 1)

/-- The diagnostic of a failed execution as the spec describes it: if the
(stripped) stderr contains `CellExecutionError`, the first line containing
`Error` or `Exception` joined by newlines with the next two lines,
otherwise the raw trimmed stderr; truncated to at most 200 characters with
no added marker. -/
def spec_diagnostic (se : String) : String :=
  let raw := pyStrip se
  let d :=
    if pyContains raw "CellExecutionError" then
      let ls := pySplitLines raw
      match first_error_line_idx ls with
      | some i => pyJoinLines ((ls.drop i).take 3)
      | none => raw
    else raw
  truncate200 d

def exec0 : String → SubprocResult := fun _ => .completed 0 ""

def load0 : String → Except String Notebook := fun _ => .ok ⟨[]⟩

def loadBad : String → Except String Notebook := fun _ => .error "invalid JSON"

/-- Example notebook with cells [markdown, code(error), code(clean)]. -/
def nbC2ex : Notebook :=
  ⟨[⟨some "markdown", []⟩,
    ⟨some "code", [⟨some "error", some "ValueError", some "boom"⟩]⟩,
    ⟨some "code", []⟩]⟩

/-- Example notebook with a single code cell holding one error output. -/
def nbC4ex : Notebook :=
  ⟨[⟨some "code", [⟨some "error", some "ValueError", some "bad input"⟩]⟩]⟩

example :
    main_run ["a.ipynb"] [] exec0 load0 =
      .ok ⟨["Running 1 notebook(s)...\n", "  Running a.ipynb...", "✓", "",
            "All notebooks passed! ✓"], 0⟩ := by rfl

example :
    main_run ["--check", "a.ipynb"] [] exec0 loadBad = .error "invalid JSON" := by rfl

example : main_run ["--check"] [] exec0 load0 = .ok ⟨["No notebooks found."], 0⟩ := by rfl

example :
    main_run ["b.ipynb", "a.ipynb"] [] exec0 load0 =
      .ok ⟨["Running 2 notebook(s)...\n", "  Running a.ipynb...", "✓",
            "  Running b.ipynb...", "✓", "", "All notebooks passed! ✓"], 0⟩ := by rfl

/-! ### Lemmas about the per-notebook loop -/

lemma process_notebook_exec_irrel (e1 e2 : String → SubprocResult)
    (l : String → Except String Notebook) (p : String) :
    process_notebook true e1 l p = process_notebook true e2 l p := rfl

lemma process_notebook_load_irrel (e : String → SubprocResult)
    (l1 l2 : String → Except String Notebook) (p : String) :
    process_notebook false e l1 p = process_notebook false e l2 p := rfl

lemma process_all_exec_irrel (e1 e2 : String → SubprocResult)
    (l : String → Except String Notebook) (ps : List String) :
    process_all true e1 l ps = process_all true e2 l ps := by
  induction ps with
  | nil => rfl
  | cons p ps ih =>
    simp only [process_all]
    rw [process_notebook_exec_irrel e1 e2 l p, ih]

lemma process_all_load_irrel (e : String → SubprocResult)
    (l1 l2 : String → Except String Notebook) (ps : List String) :
    process_all false e l1 ps = process_all false e l2 ps := by
  induction ps with
  | nil => rfl
  | cons p ps ih =>
    simp only [process_all]
    rw [process_notebook_load_irrel e l1 l2 p, ih]

/-! ### Claims C5 and C9 -/

/-- C5: for every run in which target resolution produces an empty
notebook list, the program prints exactly "No notebooks found.\n" (one
`print` call with that text) and exits with status 0, in both execution
and inspection mode (the statement quantifies over all argument lists,
hence over both modes). -/
theorem spec2proof_C5 (argv discovered : List String)
    (exec : String → SubprocResult) (load : String → Except String Notebook)
    (h : resolve_targets argv discovered = []) :
    main_run argv discovered exec load = .ok ⟨["No notebooks found."], 0⟩ := by
  simp [main_run, h]

theorem spec2proof_C5_witness :
    resolve_targets ["--check"] [] = [] ∧
    main_run ["--check"] [] exec0 load0 = .ok ⟨["No notebooks found."], 0⟩ :=
  ⟨rfl, spec2proof_C5 ["--check"] [] exec0 load0 rfl⟩

/-- C9: `--check` anywhere in the arguments selects inspection mode for
the entire run (the result then never depends on the executor), its
absence selects execution mode (the result then never depends on the
document loader), the printed header names the selected mode, and every
argument starting with `--` is stripped before target resolution, so
unrecognized flags are silently ignored rather than treated as paths. -/
theorem spec2proof_C9 :
    (∀ argv discovered e1 e2 l, argv.contains "--check" = true →
        main_run argv discovered e1 l = main_run argv discovered e2 l) ∧
    (∀ argv discovered e l1 l2, argv.contains "--check" = false →
        main_run argv discovered e l1 = main_run argv discovered e l2) ∧
    (∀ argv discovered, resolve_targets argv discovered =
        resolve_targets (argv.filter (fun a => !(pyStartsWith a "--"))) discovered) ∧
    (∀ argv discovered e l r, main_run argv discovered e l = .ok r →
        resolve_targets argv discovered ≠ [] →
        r.lines.head? = some
          ((if argv.contains "--check" then "Checking saved outputs" else "Running")
            ++ " " ++ toString (resolve_targets argv discovered).length
            ++ " notebook(s)...\n")) := by
  refine ⟨?_, ?_, ?_, ?_⟩
  · intro argv discovered e1 e2 l h
    simp only [main_run, h]
    rw [process_all_exec_irrel e1 e2 l]
  · intro argv discovered e l1 l2 h
    simp only [main_run, h]
    rw [process_all_load_irrel e l1 l2]
  · intro argv discovered
    simp [resolve_targets, List.filter_filter]
  · intro argv discovered e l r h hne
    have hni : (resolve_targets argv discovered).isEmpty = false := by
      cases hE : (resolve_targets argv discovered).isEmpty
      · rfl
      · exact absurd (List.isEmpty_iff.mp hE) hne
    simp only [main_run, hni, Bool.false_eq_true, if_false] at h
    rcases hp : process_all (argv.contains "--check") e l
        (sortNotebooks (resolve_targets argv discovered)) with e' | ⟨ap, body⟩ <;>
      rw [hp] at h
    · cases h
    · cases h
      rfl

theorem spec2proof_C9_witness :
    (main_run ["--check", "a.ipynb"] [] exec0 load0 =
      main_run ["--check", "a.ipynb"] [] (fun _ => .fileNotFound) load0) ∧
    (main_run ["a.ipynb"] [] exec0 load0 =
      main_run ["a.ipynb"] [] exec0 loadBad) ∧
    resolve_targets ["--verbose", "a.ipynb"] [] =
      resolve_targets ((["--verbose", "a.ipynb"] : List String).filter
        (fun a => !(pyStartsWith a "--"))) [] ∧
    (RunResult.mk ["Running 1 notebook(s)...\n", "  Running a.ipynb...", "✓", "",
        "All notebooks passed! ✓"] 0).lines.head? = some
      ((if (["a.ipynb"] : List String).contains "--check" then "Checking saved outputs"
        else "Running")
        ++ " " ++ toString (resolve_targets ["a.ipynb"] []).length
        ++ " notebook(s)...\n") :=
  ⟨spec2proof_C9.1 ["--check", "a.ipynb"] [] exec0 (fun _ => .fileNotFound) load0 rfl,
   spec2proof_C9.2.1 ["a.ipynb"] [] exec0 load0 loadBad rfl,
   spec2proof_C9.2.2.1 ["--verbose", "a.ipynb"] [],
   spec2proof_C9.2.2.2 ["a.ipynb"] [] exec0 load0 _ rfl (by decide)⟩

/-! ### Bridging the loop result to the per-notebook pass flag -/

lemma process_notebook_ok_passed (c : Bool) (e : String → SubprocResult)
    (l : String → Except String Notebook) (p : String) (b : Bool) (ls : List String)
    (h : process_notebook c e l p = .ok (b, ls)) :
    notebook_passed c e l p = b := by
  cases c with
  | false =>
    rcases hr : run_notebook (e p) with ⟨s, msg⟩
    simp only [process_notebook, Bool.false_eq_true, if_false, hr] at h
    cases s <;> simp_all [notebook_passed]
  | true =>
    rcases hl : l p with err | nb <;>
      simp only [process_notebook, if_true, hl] at h
    · cases h
    · by_cases he : (check_saved_outputs nb).isEmpty = true <;>
        simp_all [notebook_passed]

lemma process_all_ok_iff (c : Bool) (e : String → SubprocResult)
    (l : String → Except String Notebook) (ps : List String) (b : Bool)
    (ls : List String) (h : process_all c e l ps = .ok (b, ls)) :
    b = true ↔ ∀ p ∈ ps, notebook_passed c e l p = true := by
  induction ps generalizing b ls with
  | nil =>
    simp only [process_all] at h
    cases h
    simp
  | cons p ps ih =>
    simp only [process_all] at h
    rcases h1 : process_notebook c e l p with e1 | ⟨b1, l1⟩ <;> rw [h1] at h
    · cases h
    · rcases h2 : process_all c e l ps with e2 | ⟨b2, l2⟩ <;> rw [h2] at h
      · cases h
      · cases h
        have hb1 := process_notebook_ok_passed c e l p b1 l1 h1
        have hps := ih b2 l2 h2
        simp [Bool.and_eq_true, List.forall_mem_cons, hb1, hps]

/-- C1: for every run that processes at least one notebook and completes,
the exit status is 0 exactly when every notebook passed (executor success
in execution mode, load success with no recorded error descriptors in
inspection mode), and 1 exactly when at least one notebook failed —
regardless of the outcomes of all other notebooks. -/
theorem spec2proof_C1 (argv discovered : List String)
    (exec : String → SubprocResult) (load : String → Except String Notebook)
    (r : RunResult) (hne : resolve_targets argv discovered ≠ [])
    (h : main_run argv discovered exec load = .ok r) :
    (r.exitCode = 0 ↔ ∀ p ∈ resolve_targets argv discovered,
        notebook_passed (argv.contains "--check") exec load p = true) ∧
    (r.exitCode = 1 ↔ ∃ p ∈ resolve_targets argv discovered,
        notebook_passed (argv.contains "--check") exec load p = false) := by
  have hni : (resolve_targets argv discovered).isEmpty = false := by
    cases hE : (resolve_targets argv discovered).isEmpty
    · rfl
    · exact absurd (List.isEmpty_iff.mp hE) hne
  simp only [main_run, hni, Bool.false_eq_true, if_false] at h
  rcases hp : process_all (argv.contains "--check") exec load
      (sortNotebooks (resolve_targets argv discovered)) with e' | ⟨ap, body⟩ <;>
    rw [hp] at h
  · cases h
  · cases h
    have hiff := process_all_ok_iff _ _ _ _ _ _ hp
    have hmem : ∀ p : String,
        p ∈ sortNotebooks (resolve_targets argv discovered) ↔
          p ∈ resolve_targets argv discovered :=
      fun p => (List.perm_insertionSort _ _).mem_iff
    simp only [hmem] at hiff
    cases ap with
    | true =>
      constructor
      · simpa using hiff
      · constructor
        · intro h0
          cases h0
        · rintro ⟨p, hpmem, hpf⟩
          have := hiff.mp rfl p hpmem
          rw [hpf] at this
          cases this
    | false =>
      constructor
      · constructor
        · intro h0
          cases h0
        · intro hall
          exact absurd (hiff.mpr hall) (by simp)
      · constructor
        · intro _
          have : ¬ ∀ p ∈ resolve_targets argv discovered,
              notebook_passed (argv.contains "--check") exec load p = true := by
            intro hall
            exact absurd (hiff.mpr hall) (by simp)
          push_neg at this
          obtain ⟨p, hpmem, hpf⟩ := this
          exact ⟨p, hpmem, by simpa using hpf⟩
        · intro _
          rfl

theorem spec2proof_C1_witness :
    resolve_targets ["a.ipynb"] [] ≠ [] ∧
    ((RunResult.mk ["Running 1 notebook(s)...\n", "  Running a.ipynb...", "✓", "",
        "All notebooks passed! ✓"] 0).exitCode = 0 ↔
      ∀ p ∈ resolve_targets ["a.ipynb"] [],
        notebook_passed ((["a.ipynb"] : List String).contains "--check")
          exec0 load0 p = true) ∧
    ((RunResult.mk ["Running 1 notebook(s)...\n", "  Running a.ipynb...", "✓", "",
        "All notebooks passed! ✓"] 0).exitCode = 1 ↔
      ∃ p ∈ resolve_targets ["a.ipynb"] [],
        notebook_passed ((["a.ipynb"] : List String).contains "--check")
          exec0 load0 p = false) :=
  ⟨by decide,
   (spec2proof_C1 ["a.ipynb"] [] exec0 load0 _ (by decide) rfl).1,
   (spec2proof_C1 ["a.ipynb"] [] exec0 load0 _ (by decide) rfl).2⟩

/-! ### Error propagation through the loop (claims C6 and C7) -/

lemma process_all_error_of_mem (c : Bool) (e : String → SubprocResult)
    (l : String → Except String Notebook) (ps : List String) (p : String)
    (hmem : p ∈ ps) (h : ∃ err, process_notebook c e l p = .error err) :
    ∃ err', process_all c e l ps = .error err' := by
  induction ps with
  | nil => cases hmem
  | cons q ps ih =>
    rcases hq : process_notebook c e l q with err | ⟨b1, l1⟩
    · exact ⟨err, by simp [process_all, hq]⟩
    · have hp : p ∈ ps := by
        rcases List.mem_cons.mp hmem with rfl | hmem'
        · obtain ⟨err, herr⟩ := h
          rw [hq] at herr
          cases herr
        · exact hmem'
      obtain ⟨err', h'⟩ := ih hp
      exact ⟨err', by simp [process_all, hq, h']⟩

lemma process_all_exec_ok (e : String → SubprocResult)
    (l : String → Except String Notebook) (ps : List String) :
    ∃ b ls, process_all false e l ps = .ok (b, ls) ∧
      ∀ p ∈ ps, ("  Running " ++ path_name p ++ "...") ∈ ls := by
  induction ps with
  | nil => exact ⟨true, [], rfl, by simp⟩
  | cons p ps ih =>
    obtain ⟨b2, ls2, h2, hm2⟩ := ih
    have h1 : ∃ b1 rest, process_notebook false e l p =
        .ok (b1, ("  Running " ++ path_name p ++ "...") :: rest) := by
      rcases hr : run_notebook (e p) with ⟨s, msg⟩
      cases s
      · exact ⟨false, ["❌", "    Error: " ++ msg], by simp [process_notebook, hr]⟩
      · exact ⟨true, ["✓"], by simp [process_notebook, hr]⟩
    obtain ⟨b1, rest, h1⟩ := h1
    refine ⟨b1 && b2, (("  Running " ++ path_name p ++ "...") :: rest) ++ ls2,
      by simp [process_all, h1, h2], ?_⟩
    intro q hq
    rcases List.mem_cons.mp hq with rfl | hq'
    · simp
    · simp [hm2 q hq']

lemma process_all_check_ok (e : String → SubprocResult)
    (l : String → Except String Notebook) (ps : List String)
    (h : ∀ p ∈ ps, ∃ nb, l p = .ok nb) :
    ∃ b ls, process_all true e l ps = .ok (b, ls) := by
  induction ps with
  | nil => exact ⟨true, [], rfl⟩
  | cons p ps ih =>
    obtain ⟨nb, hnb⟩ := h p (List.mem_cons_self p ps)
    obtain ⟨b2, ls2, h2⟩ := ih (fun q hq => h q (List.mem_cons_of_mem p hq))
    have h1 : ∃ b1 l1, process_notebook true e l p = .ok (b1, l1) := by
      cases he : (check_saved_outputs nb).isEmpty <;>
        · simp only [process_notebook, if_true, hnb, he, Bool.false_eq_true, if_false]
          exact ⟨_, _, rfl⟩
    obtain ⟨b1, l1, h1⟩ := h1
    exact ⟨b1 && b2, l1 ++ ls2, by simp [process_all, h1, h2]⟩

/-- Unfolding of `main_run` on a nonempty resolved notebook list. -/
lemma main_run_eq_of_ne_empty (argv discovered : List String)
    (e : String → SubprocResult) (l : String → Except String Notebook)
    (hni : (resolve_targets argv discovered).isEmpty = false) :
    main_run argv discovered e l =
      match process_all (argv.contains "--check") e l
          (sortNotebooks (resolve_targets argv discovered)) with
      | .error err => .error err
      | .ok (all_passed, body) =>
        .ok ⟨((if argv.contains "--check" then "Checking saved outputs" else "Running")
              ++ " " ++ toString (resolve_targets argv discovered).length
              ++ " notebook(s)...\n") :: body ++ [""] ++
              [if all_passed then "All notebooks passed! ✓"
               else "Some notebooks have errors."],
             if all_passed then 0 else 1⟩ := by
  simp only [main_run, hni, Bool.false_eq_true, if_false]

/-- C6: in inspection mode, a notebook whose document fails to load (not
readable / not valid JSON) makes the whole run abort with that uncaught
exception; whereas in execution mode the run always completes, and in
inspection mode it completes whenever every targeted document loads
(error-containing but structurally valid notebooks included). -/
theorem spec2proof_C6 :
    (∀ argv discovered exec load p err, argv.contains "--check" = true →
        p ∈ resolve_targets argv discovered → load p = .error err →
        ∃ err', main_run argv discovered exec load = .error err') ∧
    (∀ argv discovered exec load, argv.contains "--check" = false →
        ∃ r, main_run argv discovered exec load = .ok r) ∧
    (∀ argv discovered exec load, argv.contains "--check" = true →
        (∀ p ∈ resolve_targets argv discovered, ∃ nb, load p = .ok nb) →
        ∃ r, main_run argv discovered exec load = .ok r) := by
  refine ⟨?_, ?_, ?_⟩
  · intro argv discovered exec load p err hc hmem hload
    have hne : resolve_targets argv discovered ≠ [] := by
      intro hnil
      rw [hnil] at hmem
      cases hmem
    have hni : (resolve_targets argv discovered).isEmpty = false := by
      cases hE : (resolve_targets argv discovered).isEmpty
      · rfl
      · exact absurd (List.isEmpty_iff.mp hE) hne
    have hmem' : p ∈ sortNotebooks (resolve_targets argv discovered) :=
      (List.perm_insertionSort _ _).mem_iff.mpr hmem
    obtain ⟨err', hp⟩ := process_all_error_of_mem true exec load
      (sortNotebooks (resolve_targets argv discovered)) p hmem'
      ⟨err, by simp [process_notebook, hload]⟩
    refine ⟨err', ?_⟩
    rw [main_run_eq_of_ne_empty argv discovered exec load hni, hc, hp]
  · intro argv discovered exec load hc
    cases hE : (resolve_targets argv discovered).isEmpty
    · obtain ⟨b, ls, hp, _⟩ := process_all_exec_ok exec load
        (sortNotebooks (resolve_targets argv discovered))
      have hmain : main_run argv discovered exec load =
          .ok ⟨((if argv.contains "--check" then "Checking saved outputs" else "Running")
                ++ " " ++ toString (resolve_targets argv discovered).length
                ++ " notebook(s)...\n") :: ls ++ [""] ++
                [if b then "All notebooks passed! ✓" else "Some notebooks have errors."],
               if b then 0 else 1⟩ := by
        rw [main_run_eq_of_ne_empty argv discovered exec load hE, hc, hp]
      exact ⟨_, hmain⟩
    · exact ⟨⟨["No notebooks found."], 0⟩, by simp [main_run, hE]⟩
  · intro argv discovered exec load hc hloads
    cases hE : (resolve_targets argv discovered).isEmpty
    · have hloads' : ∀ p ∈ sortNotebooks (resolve_targets argv discovered),
          ∃ nb, load p = .ok nb :=
        fun p hp => hloads p ((List.perm_insertionSort _ _).mem_iff.mp hp)
      obtain ⟨b, ls, hp⟩ := process_all_check_ok exec load
        (sortNotebooks (resolve_targets argv discovered)) hloads'
      have hmain : main_run argv discovered exec load =
          .ok ⟨((if argv.contains "--check" then "Checking saved outputs" else "Running")
                ++ " " ++ toString (resolve_targets argv discovered).length
                ++ " notebook(s)...\n") :: ls ++ [""] ++
                [if b then "All notebooks passed! ✓" else "Some notebooks have errors."],
               if b then 0 else 1⟩ := by
        rw [main_run_eq_of_ne_empty argv discovered exec load hE, hc, hp]
      exact ⟨_, hmain⟩
    · exact ⟨⟨["No notebooks found."], 0⟩, by simp [main_run, hE]⟩

theorem spec2proof_C6_witness :
    (∃ err', main_run ["--check", "x.ipynb"] [] exec0 loadBad = .error err') ∧
    (∃ r, main_run ["x.ipynb"] [] exec0 loadBad = .ok r) ∧
    (∃ r, main_run ["--check", "x.ipynb"] [] exec0 load0 = .ok r) :=
  ⟨spec2proof_C6.1 ["--check", "x.ipynb"] [] exec0 loadBad "x.ipynb" "invalid JSON"
      rfl (by decide) rfl,
   spec2proof_C6.2.1 ["x.ipynb"] [] exec0 loadBad rfl,
   spec2proof_C6.2.2 ["--check", "x.ipynb"] [] exec0 load0 rfl
      (fun p _ => ⟨⟨[]⟩, rfl⟩)⟩

/-- C7: when the external tool cannot be located, `run_notebook` returns
failure with the fixed actionable message, and the run is not aborted: in
execution mode the driver always completes, still printing the "Running"
line of every resolved notebook (so remaining notebooks are attempted;
the failure only feeds the aggregate result). -/
theorem spec2proof_C7 :
    run_notebook SubprocResult.fileNotFound =
      (false, "jupyter not found. Install with: pip install jupyter nbconvert") ∧
    (∀ argv discovered exec load, argv.contains "--check" = false →
        ∃ r, main_run argv discovered exec load = .ok r ∧
          ∀ p ∈ resolve_targets argv discovered,
            ("  Running " ++ path_name p ++ "...") ∈ r.lines) := by
  refine ⟨rfl, ?_⟩
  intro argv discovered exec load hc
  cases hE : (resolve_targets argv discovered).isEmpty
  · obtain ⟨b, ls, hp, hm⟩ := process_all_exec_ok exec load
      (sortNotebooks (resolve_targets argv discovered))
    have hmain : main_run argv discovered exec load =
        .ok ⟨((if argv.contains "--check" then "Checking saved outputs" else "Running")
              ++ " " ++ toString (resolve_targets argv discovered).length
              ++ " notebook(s)...\n") :: ls ++ [""] ++
              [if b then "All notebooks passed! ✓" else "Some notebooks have errors."],
             if b then 0 else 1⟩ := by
      rw [main_run_eq_of_ne_empty argv discovered exec load hE, hc, hp]
    refine ⟨_, hmain, ?_⟩
    intro p hpmem
    have hin : ("  Running " ++ path_name p ++ "...") ∈ ls :=
      hm p ((List.perm_insertionSort _ _).mem_iff.mpr hpmem)
    simp [hin]
  · refine ⟨⟨["No notebooks found."], 0⟩, by simp [main_run, hE], ?_⟩
    intro p hpmem
    rw [List.isEmpty_iff.mp hE] at hpmem
    cases hpmem

theorem spec2proof_C7_witness :
    ∃ r, main_run ["a.ipynb"] [] (fun _ => SubprocResult.fileNotFound) load0 = .ok r ∧
      ∀ p ∈ resolve_targets ["a.ipynb"] [],
        ("  Running " ++ path_name p ++ "...") ∈ r.lines :=
  spec2proof_C7.2 ["a.ipynb"] [] (fun _ => SubprocResult.fileNotFound) load0 rfl

/-! ### The inspector's cell indexing (claims C2 and C4) -/

lemma mem_cellErrors {d : ErrDesc} {i : Nat} {c : Cell} (h : d ∈ cellErrors i c) :
    c.cell_type = some "code" ∧ ∃ o ∈ c.outputs, o.output_type = some "error" ∧
      d = ⟨i, o.ename.getD "Unknown", pySlice (o.evalue.getD "") 100⟩ := by
  unfold cellErrors at h
  split at h
  · simp only [List.mem_map, List.mem_filter, beq_iff_eq] at h
    obtain ⟨o, ⟨ho, hot⟩, rfl⟩ := h
    exact ⟨by assumption, o, ho, hot, rfl⟩
  · cases h

lemma cellErrors_mem {i : Nat} {c : Cell} {o : OutputRec}
    (hct : c.cell_type = some "code") (ho : o ∈ c.outputs)
    (hot : o.output_type = some "error") :
    (⟨i, o.ename.getD "Unknown", pySlice (o.evalue.getD "") 100⟩ : ErrDesc) ∈
      cellErrors i c := by
  unfold cellErrors
  rw [if_pos hct]
  exact List.mem_map_of_mem _ (List.mem_filter.mpr ⟨ho, by simp [hot]⟩)

lemma mem_collect_errors : ∀ (cs : List Cell) (i : Nat) (d : ErrDesc),
    d ∈ collect_errors i cs → ∃ k c, cs.get? k = some c ∧ d ∈ cellErrors (i + k) c := by
  intro cs
  induction cs with
  | nil => simp [collect_errors]
  | cons c cs ih =>
    intro i d h
    rcases List.mem_append.mp h with h1 | h2
    · exact ⟨0, c, rfl, by simpa using h1⟩
    · obtain ⟨k, c', hk, hd⟩ := ih (i + 1) d h2
      refine ⟨k + 1, c', hk, ?_⟩
      have : i + (k + 1) = (i + 1) + k := by omega
      rw [this]
      exact hd

lemma collect_errors_mem : ∀ (cs : List Cell) (i k : Nat) (c : Cell) (d : ErrDesc),
    cs.get? k = some c → d ∈ cellErrors (i + k) c → d ∈ collect_errors i cs := by
  intro cs
  induction cs with
  | nil => intro i k c d h; simp at h
  | cons c0 cs ih =>
    intro i k c d hk hd
    cases k with
    | zero =>
      obtain rfl : c0 = c := by simpa using hk
      exact List.mem_append.mpr (Or.inl (by simpa using hd))
    | succ k =>
      refine List.mem_append.mpr (Or.inr (ih (i + 1) k c d (by simpa using hk) ?_))
      have : (i + 1) + k = i + (k + 1) := by omega
      rw [this]
      exact hd

/-- C2: `check_saved_outputs` assigns cell indices 1-based over the full
cell list in document order (non-code cells counted too): every emitted
descriptor's index is the literal position of a code cell in the cell
list carrying a matching error output; and the notebook
[markdown, code(error), code(clean)] reports its error at cell index 2. -/
theorem spec2proof_C2 :
    (∀ (nb : Notebook) (d : ErrDesc), d ∈ check_saved_outputs nb →
        1 ≤ d.cell ∧ ∃ c, nb.cells.get? (d.cell - 1) = some c ∧
          c.cell_type = some "code" ∧ ∃ o ∈ c.outputs, o.output_type = some "error" ∧
            d.ename = o.ename.getD "Unknown" ∧
            d.evalue = pySlice (o.evalue.getD "") 100) ∧
    check_saved_outputs nbC2ex = [⟨2, "ValueError", "boom"⟩] := by
  constructor
  · intro nb d h
    obtain ⟨k, c, hk, hd⟩ := mem_collect_errors nb.cells 1 d h
    obtain ⟨hct, o, ho, hot, rfl⟩ := mem_cellErrors hd
    refine ⟨Nat.le_add_right 1 k, c, ?_, hct, o, ho, hot, rfl, rfl⟩
    show nb.cells.get? (1 + k - 1) = some c
    simpa using hk
  · rfl

theorem spec2proof_C2_witness :
    1 ≤ (⟨2, "ValueError", "boom"⟩ : ErrDesc).cell ∧
    ∃ c, nbC2ex.cells.get? ((⟨2, "ValueError", "boom"⟩ : ErrDesc).cell - 1) = some c ∧
      c.cell_type = some "code" ∧ ∃ o ∈ c.outputs, o.output_type = some "error" ∧
        (⟨2, "ValueError", "boom"⟩ : ErrDesc).ename = o.ename.getD "Unknown" ∧
        (⟨2, "ValueError", "boom"⟩ : ErrDesc).evalue = pySlice (o.evalue.getD "") 100 :=
  spec2proof_C2.1 nbC2ex ⟨2, "ValueError", "boom"⟩ (by decide)

/-- C4: every output record tagged "error" inside a code cell yields a
descriptor with the cell's 1-based index, the error name (default
"Unknown" when absent), and the error value truncated to at most 100
characters; the single-cell example notebook yields exactly the
descriptor (cell 1, "ValueError", "bad input"). -/
theorem spec2proof_C4 :
    (∀ (nb : Notebook) (k : Nat) (c : Cell) (o : OutputRec),
        nb.cells.get? k = some c → c.cell_type = some "code" →
        o ∈ c.outputs → o.output_type = some "error" →
        (⟨k + 1, o.ename.getD "Unknown", pySlice (o.evalue.getD "") 100⟩ : ErrDesc) ∈
          check_saved_outputs nb) ∧
    (∀ v : String, (pySlice v 100).data.length ≤ 100) ∧
    check_saved_outputs nbC4ex = [⟨1, "ValueError", "bad input"⟩] := by
  refine ⟨?_, ?_, rfl⟩
  · intro nb k c o hk hct ho hot
    refine collect_errors_mem nb.cells 1 k c _ hk ?_
    have : (1 : Nat) + k = k + 1 := by omega
    rw [this]
    exact cellErrors_mem hct ho hot
  · intro v
    simp [pySlice]

theorem spec2proof_C4_witness :
    (⟨0 + 1,
      (OutputRec.mk (some "error") (some "ValueError") (some "bad input")).ename.getD "Unknown",
      pySlice ((OutputRec.mk (some "error") (some "ValueError")
        (some "bad input")).evalue.getD "") 100⟩ : ErrDesc) ∈
      check_saved_outputs nbC4ex :=
  spec2proof_C4.1 nbC4ex 0
    ⟨some "code", [⟨some "error", some "ValueError", some "bad input"⟩]⟩
    ⟨some "error", some "ValueError", some "bad input"⟩ rfl rfl (by decide) rfl

/-! ### Sorted processing order (claim C8) -/

lemma lexLt_irrefl : ∀ a : List Char, lexLt a a = false := by
  intro a
  induction a with
  | nil => rfl
  | cons x xs ih =>
    simp only [lexLt, if_pos rfl]
    exact ih

lemma lexLt_trans : ∀ a b c : List Char,
    lexLt a b = true → lexLt b c = true → lexLt a c = true := by
  intro a
  induction a with
  | nil =>
    intro b c hab hbc
    cases b with
    | nil => cases hab
    | cons y ys =>
      cases c with
      | nil => cases hbc
      | cons z zs => rfl
  | cons x xs ih =>
    intro b c hab hbc
    cases b with
    | nil => cases hab
    | cons y ys =>
      cases c with
      | nil => cases hbc
      | cons z zs =>
        by_cases hxy : x = y <;> by_cases hyz : y = z
        · subst hxy; subst hyz
          simp only [lexLt, if_pos rfl] at hab hbc ⊢
          exact ih ys zs hab hbc
        · subst hxy
          simp only [lexLt, if_neg hyz] at hbc
          simp only [lexLt, if_neg hyz]
          exact hbc
        · subst hyz
          simp only [lexLt, if_neg hxy] at hab
          simp only [lexLt, if_neg hxy]
          exact hab
        · simp only [lexLt, if_neg hxy] at hab
          simp only [lexLt, if_neg hyz] at hbc
          have hlt : x < z := lt_trans (of_decide_eq_true hab) (of_decide_eq_true hbc)
          have hxz : x ≠ z := ne_of_lt hlt
          simp [lexLt, hxz, hlt]

lemma lexLt_asymm {a b : List Char} (hab : lexLt a b = true)
    (hba : lexLt b a = true) : False := by
  have := lexLt_trans a b a hab hba
  rw [lexLt_irrefl a] at this
  cases this

lemma lexLt_total_of_ne : ∀ a b : List Char, a ≠ b →
    lexLt a b = true ∨ lexLt b a = true := by
  intro a
  induction a with
  | nil =>
    intro b hne
    cases b with
    | nil => exact absurd rfl hne
    | cons y ys => exact Or.inl rfl
  | cons x xs ih =>
    intro b hne
    cases b with
    | nil => exact Or.inr rfl
    | cons y ys =>
      by_cases hxy : x = y
      · subst hxy
        have hxs : xs ≠ ys := fun h => hne (by rw [h])
        rcases ih ys hxs with h | h
        · exact Or.inl (by simp only [lexLt, if_pos rfl]; exact h)
        · exact Or.inr (by simp only [lexLt, if_pos rfl]; exact h)
      · rcases lt_or_gt_of_ne hxy with h | h
        · exact Or.inl (by simp [lexLt, hxy, h])
        · exact Or.inr (by simp [lexLt, Ne.symm hxy, h])

lemma partsLe_total : ∀ x y : List (List Char),
    partsLe x y = true ∨ partsLe y x = true := by
  intro x
  induction x with
  | nil => intro y; exact Or.inl rfl
  | cons a as ih =>
    intro y
    cases y with
    | nil => exact Or.inr rfl
    | cons b bs =>
      by_cases hab : a = b
      · subst hab
        rcases ih bs with h | h
        · exact Or.inl (by simp only [partsLe, if_pos rfl]; exact h)
        · exact Or.inr (by simp only [partsLe, if_pos rfl]; exact h)
      · rcases lexLt_total_of_ne a b hab with h | h
        · exact Or.inl (by simp only [partsLe, if_neg hab]; exact h)
        · exact Or.inr (by simp only [partsLe, if_neg (Ne.symm hab)]; exact h)

lemma partsLe_trans : ∀ x y z : List (List Char),
    partsLe x y = true → partsLe y z = true → partsLe x z = true := by
  intro x
  induction x with
  | nil => intro y z _ _; rfl
  | cons a as ih =>
    intro y z hxy hyz
    cases y with
    | nil => cases hxy
    | cons b bs =>
      cases z with
      | nil => cases hyz
      | cons c cs =>
        by_cases hab : a = b <;> by_cases hbc : b = c
        · subst hab; subst hbc
          simp only [partsLe, if_pos rfl] at hxy hyz ⊢
          exact ih bs cs hxy hyz
        · subst hab
          simp only [partsLe, if_neg hbc] at hyz
          simp only [partsLe, if_neg hbc]
          exact hyz
        · subst hbc
          simp only [partsLe, if_neg hab] at hxy
          simp only [partsLe, if_neg hab]
          exact hxy
        · simp only [partsLe, if_neg hab] at hxy
          simp only [partsLe, if_neg hbc] at hyz
          have hac : a ≠ c := by
            intro h
            subst h
            exact lexLt_asymm hxy hyz
          simp only [partsLe, if_neg hac]
          exact lexLt_trans a b c hxy hyz

/-- C8 counterexample: the processing order is pathlib's component-wise
order, not character-lexicographic order of the path string. With the
resolved notebooks foo-bar/a.ipynb and foo/b.ipynb, the run processes
and prints foo/b.ipynb's notebook first (pathlib: ['foo','b.ipynb'] <
['foo-bar','a.ipynb']), although the whole path string
"foo-bar/a.ipynb" precedes "foo/b.ipynb" character-lexicographically —
so the processing order is not sorted by the path-string order. -/
theorem spec2proof_C8_counterexample :
    main_run ["foo-bar/a.ipynb", "foo/b.ipynb"] [] exec0 load0 =
      .ok ⟨["Running 2 notebook(s)...\n",
            "  Running b.ipynb...", "✓",
            "  Running a.ipynb...", "✓", "",
            "All notebooks passed! ✓"], 0⟩ ∧
    sortNotebooks ["foo-bar/a.ipynb", "foo/b.ipynb"] =
      ["foo/b.ipynb", "foo-bar/a.ipynb"] ∧
    lexLe ("foo-bar/a.ipynb" : String).data ("foo/b.ipynb" : String).data = true ∧
    ("foo-bar/a.ipynb" : String) ≠ "foo/b.ipynb" ∧
    ¬ List.Sorted (fun a b : String => lexLe a.data b.data = true)
        (sortNotebooks ["foo-bar/a.ipynb", "foo/b.ipynb"]) :=
  ⟨rfl, rfl, rfl, by decide, by
    intro hs
    rw [show sortNotebooks ["foo-bar/a.ipynb", "foo/b.ipynb"] =
        ["foo/b.ipynb", "foo-bar/a.ipynb"] from rfl] at hs
    have h := (List.sorted_cons.mp hs).1 "foo-bar/a.ipynb" (List.Mem.head _)
    exact absurd h (by decide)⟩

/-- C8 (amended): notebooks are processed and printed in sorted order by
path under pathlib's path ordering — the lists of path components
compared lexicographically, components compared as strings — independent
of discovery order: the processing order is a `pathLe`-sorted permutation
of the resolved list. For single-component paths this coincides with
lexicographic order of the name; in particular, given notebooks
"b.ipynb" and "a.ipynb" together, the "a.ipynb" status line is printed
before the "b.ipynb" one. (It differs from character-lexicographic order
of the whole path string on multi-component paths, see the
counterexample.) -/
theorem spec2proof_C8 :
    (∀ ns : List String, (sortNotebooks ns).Perm ns ∧
        List.Sorted (fun a b : String => pathLe a b = true) (sortNotebooks ns)) ∧
    (∀ (exec : String → SubprocResult) (load : String → Except String Notebook),
        ∃ pre mid post r,
          main_run ["b.ipynb", "a.ipynb"] [] exec load = .ok r ∧
          r.lines = pre ++ ("  Running a.ipynb..." :: mid) ++
            ("  Running b.ipynb..." :: post)) := by
  constructor
  · intro ns
    haveI htot : IsTotal String (fun a b : String => pathLe a b = true) :=
      ⟨fun a b => partsLe_total (pathComponents a) (pathComponents b)⟩
    haveI htr : IsTrans String (fun a b : String => pathLe a b = true) :=
      ⟨fun a b c hab hbc =>
        partsLe_trans (pathComponents a) (pathComponents b) (pathComponents c) hab hbc⟩
    exact ⟨List.perm_insertionSort _ ns, List.sorted_insertionSort _ ns⟩
  · intro exec load
    have hshape : ∀ p, ∃ b1 rest, process_notebook false exec load p =
        .ok (b1, ("  Running " ++ path_name p ++ "...") :: rest) := by
      intro p
      rcases hr : run_notebook (exec p) with ⟨s, msg⟩
      cases s
      · exact ⟨false, ["❌", "    Error: " ++ msg], by simp [process_notebook, hr]⟩
      · exact ⟨true, ["✓"], by simp [process_notebook, hr]⟩
    obtain ⟨b1, rest1, h1⟩ := hshape "a.ipynb"
    obtain ⟨b2, rest2, h2⟩ := hshape "b.ipynb"
    have hsort : sortNotebooks (resolve_targets ["b.ipynb", "a.ipynb"] []) =
        ["a.ipynb", "b.ipynb"] := by rfl
    have hall : process_all false exec load ["a.ipynb", "b.ipynb"] =
        .ok (b1 && (b2 && true),
          (("  Running a.ipynb..." :: rest1) ++ (("  Running b.ipynb..." :: rest2) ++ []))) := by
      simp only [process_all, h1, h2]
      rfl
    have hmain : main_run ["b.ipynb", "a.ipynb"] [] exec load =
        .ok ⟨("Running 2 notebook(s)...\n" ::
              (("  Running a.ipynb..." :: rest1) ++ (("  Running b.ipynb..." :: rest2) ++ [])))
              ++ [""] ++
              [if b1 && (b2 && true) then "All notebooks passed! ✓"
               else "Some notebooks have errors."],
             if b1 && (b2 && true) then 0 else 1⟩ := by
      rw [main_run_eq_of_ne_empty ["b.ipynb", "a.ipynb"] [] exec load rfl]
      rw [show ((["b.ipynb", "a.ipynb"] : List String).contains "--check") = false from rfl,
        hsort, hall]
      rfl
    refine ⟨["Running 2 notebook(s)...\n"], rest1,
      rest2 ++ [""] ++
        [if b1 && (b2 && true) then "All notebooks passed! ✓"
         else "Some notebooks have errors."],
      _, hmain, ?_⟩
    simp

/-! ### Substring and line-splitting lemmas (claims C3 and C10) -/

lemma leadsWith_iff : ∀ pat l : List Char, leadsWith pat l = true ↔ pat <+: l := by
  intro pat
  induction pat with
  | nil => intro l; exact ⟨fun _ => ⟨l, rfl⟩, fun _ => rfl⟩
  | cons p ps ih =>
    intro l
    cases l with
    | nil =>
      constructor
      · intro h; cases h
      · rintro ⟨t, ht⟩; cases ht
    | cons x xs =>
      simp only [leadsWith, Bool.and_eq_true, beq_iff_eq, ih]
      constructor
      · rintro ⟨rfl, t, rfl⟩
        exact ⟨t, rfl⟩
      · rintro ⟨t, ht⟩
        injection ht with h1 h2
        exact ⟨h1, t, h2⟩

lemma infix_cons_cases {pat xs : List Char} {x : Char} :
    pat <:+: x :: xs ↔ pat <+: x :: xs ∨ pat <:+: xs := by
  constructor
  · rintro ⟨s, t, e⟩
    cases s with
    | nil => exact Or.inl ⟨t, e⟩
    | cons y s' =>
      injection e with e1 e2
      exact Or.inr ⟨s', t, e2⟩
  · rintro (⟨t, e⟩ | ⟨s, t, e⟩)
    · exact ⟨[], t, e⟩
    · exact ⟨x :: s, t, by rw [← e]; rfl⟩

lemma infix_cons_intro {pat xs : List Char} (x : Char) (h : pat <:+: xs) :
    pat <:+: x :: xs := by
  obtain ⟨s, t, e⟩ := h
  exact ⟨x :: s, t, by rw [← e]; rfl⟩

lemma occursWithin_iff : ∀ (pat l : List Char), occursWithin pat l = true ↔ pat <:+: l := by
  intro pat l
  induction l with
  | nil =>
    simp only [occursWithin, leadsWith_iff]
    constructor
    · rintro ⟨t, h⟩
      exact ⟨[], t, h⟩
    · rintro ⟨s, t, e⟩
      rcases List.append_eq_nil.mp e with ⟨h1, h2⟩
      rcases List.append_eq_nil.mp h1 with ⟨rfl, rfl⟩
      exact ⟨[], rfl⟩
  | cons x xs ih =>
    simp only [occursWithin, Bool.or_eq_true, leadsWith_iff, ih, infix_cons_cases]

lemma splitOnChar_ne_nil (c : Char) : ∀ l, splitOnChar c l ≠ [] := by
  intro l
  cases l with
  | nil => simp [splitOnChar]
  | cons x xs =>
    cases h : splitOnChar c xs with
    | nil => simp [splitOnChar, h]
    | cons h0 t => by_cases hxc : x = c <;> simp [splitOnChar, h, hxc]

lemma pfx_split_head (c : Char) : ∀ (pat l : List Char), c ∉ pat → pat <+: l →
    ∃ h t, splitOnChar c l = h :: t ∧ pat <+: h := by
  intro pat
  induction pat with
  | nil =>
    intro l _ _
    cases hs : splitOnChar c l with
    | nil => exact absurd hs (splitOnChar_ne_nil c l)
    | cons h t => exact ⟨h, t, rfl, ⟨h, rfl⟩⟩
  | cons p ps ih =>
    intro l hc hpfx
    have hpc : ¬ p = c := by
      intro h
      subst h
      exact hc (List.Mem.head _)
    have hcps : c ∉ ps := fun h => hc (List.Mem.tail _ h)
    obtain ⟨t0, he⟩ := hpfx
    obtain ⟨h1, t1, hs1, hp1⟩ := ih (ps ++ t0) hcps ⟨t0, rfl⟩
    obtain ⟨t2, ht2⟩ := hp1
    refine ⟨p :: h1, t1, ?_, ⟨t2, by rw [← ht2]; rfl⟩⟩
    rw [← he]
    show splitOnChar c (p :: (ps ++ t0)) = (p :: h1) :: t1
    simp only [splitOnChar, hs1, if_neg hpc]

lemma infix_split (c : Char) : ∀ (l pat : List Char), pat ≠ [] → c ∉ pat →
    pat <:+: l → ∃ piece ∈ splitOnChar c l, pat <:+: piece := by
  intro l
  induction l with
  | nil =>
    intro pat hne _ hinf
    obtain ⟨s, t, e⟩ := hinf
    rcases List.append_eq_nil.mp e with ⟨h1, _⟩
    rcases List.append_eq_nil.mp h1 with ⟨_, h3⟩
    exact absurd h3 hne
  | cons x xs ih =>
    intro pat hne hc hinf
    rcases infix_cons_cases.mp hinf with hpfx | hinf'
    · obtain ⟨h1, t1, hs, hp⟩ := pfx_split_head c pat (x :: xs) hc hpfx
      obtain ⟨t2, ht2⟩ := hp
      exact ⟨h1, by rw [hs]; exact List.Mem.head _, ⟨[], t2, by rw [← ht2]; rfl⟩⟩
    · obtain ⟨piece, hmem, hpc⟩ := ih pat hne hc hinf'
      cases hs : splitOnChar c xs with
      | nil => exact absurd hs (splitOnChar_ne_nil c xs)
      | cons h t =>
        rw [hs] at hmem
        by_cases hxc : x = c
        · refine ⟨piece, ?_, hpc⟩
          show piece ∈ splitOnChar c (x :: xs)
          simp only [splitOnChar, hs, if_pos hxc]
          exact List.Mem.tail _ hmem
        · rcases List.mem_cons.mp hmem with rfl | hmem'
          · refine ⟨x :: piece, ?_, infix_cons_intro x hpc⟩
            show x :: piece ∈ splitOnChar c (x :: xs)
            simp only [splitOnChar, hs, if_neg hxc]
            exact List.Mem.head _
          · refine ⟨piece, ?_, hpc⟩
            show piece ∈ splitOnChar c (x :: xs)
            simp only [splitOnChar, hs, if_neg hxc]
            exact List.Mem.tail _ hmem'

lemma scan_finds {ls : List String} {l0 : String} (hmem : l0 ∈ ls)
    (hl : pyContains l0 "Error" = true) :
    ∃ m, scan_error_lines ls = some m := by
  induction ls with
  | nil => cases hmem
  | cons l ls ih =>
    by_cases hp : (pyContains l "Error" || pyContains l "Exception") = true
    · exact ⟨pyJoinLines (l :: ls.take 2), by simp only [scan_error_lines, if_pos hp]⟩
    · rcases List.mem_cons.mp hmem with rfl | hmem'
      · exact absurd (by simp [hl]) hp
      · obtain ⟨m, hm⟩ := ih hmem'
        exact ⟨m, by simp only [scan_error_lines, if_neg hp, hm]⟩

/-- C10: whenever the stripped stderr contains `CellExecutionError`, the
line-by-line scan necessarily finds a line containing `Error` (the line
holding that substring itself contains `Error`), so the raw-stderr
fallback branch after the scan is unreachable and, for any nonzero exit
status, the returned diagnostic is the (truncated) three-line extract. -/
theorem spec2proof_C10 (rc : Int) (se : String) (h : rc ≠ 0)
    (hce : pyContains (pyStrip se) "CellExecutionError" = true) :
    ∃ m, scan_error_lines (pySplitLines (pyStrip se)) = some m ∧
      run_notebook (.completed rc se) = (false, truncate200 m) := by
  have hinf : ("CellExecutionError".data : List Char) <:+: (pyStrip se).data :=
    (occursWithin_iff _ _).mp hce
  have hne : ("CellExecutionError".data : List Char) ≠ [] := by decide
  have hnl : '\n' ∉ "CellExecutionError".data := by decide
  obtain ⟨piece, hmem, hpinf⟩ :=
    infix_split '\n' (pyStrip se).data "CellExecutionError".data hne hnl hinf
  have herr : ("Error".data : List Char) <:+: "CellExecutionError".data :=
    (occursWithin_iff _ _).mp (by decide)
  have hpe : ("Error".data : List Char) <:+: piece := herr.trans hpinf
  have hmem' : (⟨piece⟩ : String) ∈ pySplitLines (pyStrip se) :=
    List.mem_map_of_mem _ hmem
  have hcontains : pyContains ⟨piece⟩ "Error" = true :=
    (occursWithin_iff _ _).mpr hpe
  obtain ⟨m, hm⟩ := scan_finds hmem' hcontains
  refine ⟨m, hm, ?_⟩
  simp only [run_notebook, if_pos h, extract_error_msg, if_pos hce, hm]

theorem spec2proof_C10_witness :
    ∃ m, scan_error_lines (pySplitLines (pyStrip "CellExecutionError: boom")) = some m ∧
      run_notebook (.completed 1 "CellExecutionError: boom") = (false, truncate200 m) :=
  spec2proof_C10 1 "CellExecutionError: boom" (by decide) (by decide)

/-! ### The diagnostic derivation (claim C3) -/

lemma scan_error_lines_eq_idx : ∀ ls : List String,
    scan_error_lines ls =
      (first_error_line_idx ls).map (fun i => pyJoinLines ((ls.drop i).take 3)) := by
  intro ls
  induction ls with
  | nil => rfl
  | cons l ls ih =>
    by_cases hp : (pyContains l "Error" || pyContains l "Exception") = true
    · simp [scan_error_lines, first_error_line_idx, hp, List.take_succ_cons,
        List.drop_succ_cons]
    · cases hidx : first_error_line_idx ls with
      | none =>
        simp [scan_error_lines, first_error_line_idx, hp, hidx, ih]
      | some i =>
        simp [scan_error_lines, first_error_line_idx, hp, hidx, ih,
          List.drop_succ_cons]

lemma spec_diagnostic_eq (se : String) :
    spec_diagnostic se = truncate200 (extract_error_msg (pyStrip se)) := by
  unfold spec_diagnostic extract_error_msg
  cases hce : pyContains (pyStrip se) "CellExecutionError"
  · simp [hce]
  · simp only [hce, if_true]
    rw [scan_error_lines_eq_idx]
    cases hidx : first_error_line_idx (pySplitLines (pyStrip se)) <;> simp [hidx]

/-- C3: for every nonzero subprocess exit status, `run_notebook` returns
failure with the diagnostic the spec describes (three-line extract when
stderr contains `CellExecutionError`, raw trimmed stderr otherwise); the
returned diagnostic never exceeds 200 characters, and a pre-truncation
message longer than 200 characters is cut to exactly its first 200
characters with no added marker. -/
theorem spec2proof_C3 (rc : Int) (se : String) (h : rc ≠ 0) :
    run_notebook (.completed rc se) = (false, spec_diagnostic se) ∧
    (run_notebook (.completed rc se)).2.data.length ≤ 200 ∧
    (200 < (extract_error_msg (pyStrip se)).data.length →
      (run_notebook (.completed rc se)).2.data =
        (extract_error_msg (pyStrip se)).data.take 200 ∧
      (run_notebook (.completed rc se)).2.data.length = 200) := by
  have hrun : run_notebook (.completed rc se) =
      (false, truncate200 (extract_error_msg (pyStrip se))) := by
    simp only [run_notebook, if_pos h]
  refine ⟨?_, ?_, ?_⟩
  · rw [hrun, spec_diagnostic_eq]
  · rw [hrun]
    show (truncate200 (extract_error_msg (pyStrip se))).data.length ≤ 200
    unfold truncate200
    split
    · simp only [List.length_take]
      omega
    · omega
  · intro hl
    rw [hrun]
    constructor
    · show (truncate200 (extract_error_msg (pyStrip se))).data =
        (extract_error_msg (pyStrip se)).data.take 200
      unfold truncate200
      rw [if_pos hl]
    · show (truncate200 (extract_error_msg (pyStrip se))).data.length = 200
      unfold truncate200
      rw [if_pos hl]
      simp only [List.length_take]
      omega

theorem spec2proof_C3_witness :
    run_notebook (.completed 1 "ValueError: bad") =
      (false, spec_diagnostic "ValueError: bad") ∧
    (run_notebook (.completed 1 "ValueError: bad")).2.data.length ≤ 200 ∧
    (200 < (extract_error_msg (pyStrip "ValueError: bad")).data.length →
      (run_notebook (.completed 1 "ValueError: bad")).2.data =
        (extract_error_msg (pyStrip "ValueError: bad")).data.take 200 ∧
      (run_notebook (.completed 1 "ValueError: bad")).2.data.length = 200) :=
  spec2proof_C3 1 "ValueError: bad" (by decide)
